import Mathlib

/-!
Shallow embedding of the day 19 scanner-registration subsystem
(src/day19/src/lib.rs) and verification of its specification.

Beacon sets (Rust HashSet) are modelled as lists of coordinates with an
explicit iteration order; the HashMap tally in can_align_to is modelled as an
association list from coordinates to counts.  Machine integers (i32) are
modelled as Int.  The while-let work list of solve is modelled with an explicit fuel
parameter, whose sufficiency is proved.
-/

namespace Day19

/-- Model of struct Coordinates: a 3-D integer point. -/
structure Coordinates where
  x : Int
  y : Int
  z : Int
deriving DecidableEq, Repr

/-- Model of enum Plane. -/
inductive Plane where
  | XY
  | XZ
  | YZ
deriving DecidableEq, Repr

open Plane

/-- Model of all_rotations: the fixed 26-step list of plane rotations. -/
def all_rotations : List Plane :=
  [XY, XY, XY, XZ, XY, XY, XY, XZ, XY, XY, XY, YZ, XY, XY, XY, XY, YZ, XY,
   XY, XY, YZ, XZ, XZ, XY, XY, XY]

/-- Model of Coordinates::distance: other - self, componentwise. -/
def Coordinates.distance (self other : Coordinates) : Coordinates :=
  ⟨other.x - self.x, other.y - self.y, other.z - self.z⟩

/-- Model of Coordinates::rotate. -/
def Coordinates.rotate (self : Coordinates) (plane : Plane) : Coordinates :=
  match plane with
  | XY => ⟨self.y, -self.x, self.z⟩
  | XZ => ⟨self.z, self.y, -self.x⟩
  | YZ => ⟨self.x, self.z, -self.y⟩

/-- Model of Coordinates::move_by: self + shift, componentwise. -/
def Coordinates.move_by (self shift : Coordinates) : Coordinates :=
  ⟨self.x + shift.x, self.y + shift.y, self.z + shift.z⟩

/-- Model of Coordinates::manhattan_distance. -/
def Coordinates.manhattan_distance (self other : Coordinates) : Int :=
  |other.x - self.x| + |other.y - self.y| + |other.z - self.z|

/-- Model of struct Scanner; the HashSet of beacons becomes a list with an
explicit iteration order (set semantics is a Nodup hypothesis where needed). -/
structure Scanner where
  position : Coordinates
  beacons : List Coordinates
deriving DecidableEq, Repr

/-- Model of Scanner::rotate. -/
def Scanner.rotate (self : Scanner) (plane : Plane) : Scanner :=
  ⟨self.position.rotate plane, self.beacons.map (fun b => b.rotate plane)⟩

/-- Model of Scanner::move_by. -/
def Scanner.move_by (self : Scanner) (shift : Coordinates) : Scanner :=
  ⟨self.position.move_by shift, self.beacons.map (fun b => b.move_by shift)⟩

/-- The flat list of pairwise differences iterated by can_align_to:
for each of self's beacons, the differences to each of other's beacons. -/
def Scanner.pairDiffs (self other : Scanner) : List Coordinates :=
  self.beacons.flatMap (fun mb => other.beacons.map (fun tb => mb.distance tb))

/-- One HashMap entry update of can_align_to: find the key's cell and
increment it, or insert the key with count 1; returns the new count together
with the updated map (the HashMap is modelled as an association list). -/
def bumpCount :
    List (Coordinates × Nat) → Coordinates → Nat × List (Coordinates × Nat)
  | [], d => (1, [(d, 1)])
  | (e, n) :: rest, d =>
    if e = d then (n + 1, (e, n + 1) :: rest)
    else
      let r := bumpCount rest d
      (r.1, (e, n) :: r.2)

/-- The tallying loop of can_align_to: each difference bumps its tally and
the loop returns as soon as a tally reaches 12. -/
def canAlignGo :
    List Coordinates → List (Coordinates × Nat) → Option Coordinates
  | [], _ => none
  | d :: rest, counter =>
    let r := bumpCount counter d
    if 12 ≤ r.1 then some d
    else canAlignGo rest r.2

/-- The count a key holds in the association-list counter (0 if absent). -/
def lookupCount : List (Coordinates × Nat) → Coordinates → Nat
  | [], _ => 0
  | (e, n) :: rest, d => if e = d then n else lookupCount rest d

/-- Model of Scanner::can_align_to: the counter starts empty. -/
def Scanner.can_align_to (self other : Scanner) : Option Coordinates :=
  canAlignGo (self.pairDiffs other) []

/-- The loop of Scanner::align_to: test the current orientation, and on
failure rotate by the next plane of the remaining list and repeat. -/
def alignGo (other : Scanner) : List Plane → Scanner → Option Scanner
  | [], scanner =>
    match scanner.can_align_to other with
    | some shift => some (scanner.move_by shift)
    | none => none
  | p :: rest, scanner =>
    match scanner.can_align_to other with
    | some shift => some (scanner.move_by shift)
    | none => alignGo other rest (scanner.rotate p)

/-- Model of Scanner::align_to. -/
def Scanner.align_to (self other : Scanner) : Option Scanner :=
  alignGo other all_rotations self

/-- The inner while-let of solve: pop each pending scanner, try to align it to
the reference; successes are pushed onto the aligning stack, failures onto the
skipped stack.  Stacks are lists with the head as the top (Rust Vec pops from
the end). -/
def innerLoop (ref : Scanner) :
    List Scanner → List Scanner → List Scanner → List Scanner × List Scanner
  | [], aligning, skipped => (aligning, skipped)
  | p :: rest, aligning, skipped =>
    match p.align_to ref with
    | some s => innerLoop ref rest (s :: aligning) skipped
    | none => innerLoop ref rest aligning (p :: skipped)

/-- The outer while-let of solve, with an explicit fuel parameter (each outer
iteration strictly decreases aligning.length + pending.length, so fuel equal to
that sum suffices; see the termination theorem).  Returns the aligned stack
(head = most recently finished reference) and the final pending pool. -/
def solveLoop :
    Nat → List Scanner → List Scanner → List Scanner →
      Option (List Scanner × List Scanner)
  | _, [], pending, aligned => some (aligned, pending)
  | 0, _ :: _, _, _ => none
  | fuel + 1, a :: restAl, pending, aligned =>
    let r := innerLoop a pending restAl []
    solveLoop fuel r.1 r.2 (a :: aligned)

/-- Maximum of a list of integers, as Iterator::max: none on the empty list. -/
def listMax : List Int → Option Int
  | [] => none
  | x :: rest =>
    match listMax rest with
    | none => some x
    | some m => some (max x m)

/-- The pairwise Manhattan distances between scanner positions, over all
unordered pairs in list order (aligned[i] vs aligned[j] for i < j). -/
def pairDistances : List Scanner → List Int
  | [] => []
  | s :: rest =>
    rest.map (fun s2 => s.position.manhattan_distance s2.position)
      ++ pairDistances rest

/-- The number of distinct beacon coordinates across the aligned scanners
(the HashSet collect of solve). -/
def uniqueBeacons (aligned : List Scanner) : Nat :=
  ((aligned.flatMap Scanner.beacons).dedup).length

/-- Model of solve: seed the first scanner, run the work list, fail if any
scanner is left pending, otherwise return the unique-beacon count and the
maximum pairwise Manhattan distance (none when there are no pairs, as the
question-mark on Iterator::max). -/
def solve (scanners : List Scanner) : Option (Nat × Int) :=
  match scanners with
  | [] => none
  | s0 :: rest =>
    match solveLoop (s0 :: rest).length [s0] rest.reverse [] with
    | none => none
    | some (alignedRev, pending) =>
      if pending = [] then
        match listMax (pairDistances alignedRev.reverse) with
        | none => none
        | some md => some (uniqueBeacons alignedRev.reverse, md)
      else none

/-- Composite orientation reached after applying a list of plane rotations in
order (the cumulative state of the align_to loop). -/
def applyRots (planes : List Plane) (c : Coordinates) : Coordinates :=
  planes.foldl Coordinates.rotate c

/-- Number of can_align_to calls the align_to loop makes with the given list
of remaining planes. -/
def alignTries (other : Scanner) : List Plane → Scanner → Nat
  | [], _ => 1
  | p :: rest, scanner =>
    match scanner.can_align_to other with
    | some _ => 1
    | none => 1 + alignTries other rest (scanner.rotate p)

/-- A scanner rotated by a whole list of plane rotations (the cumulative
rotated copy align_to holds after consuming a prefix of all_rotations). -/
def orientScanner (pre : List Plane) (s : Scanner) : Scanner :=
  ⟨applyRots pre s.position, s.beacons.map (applyRots pre)⟩

/-- First basis vector. -/
def e1 : Coordinates := ⟨1, 0, 0⟩

/-- Second basis vector. -/
def e2 : Coordinates := ⟨0, 1, 0⟩

/-- Third basis vector. -/
def e3 : Coordinates := ⟨0, 0, 1⟩

/-- Componentwise scaling, used to state that orientations act linearly. -/
def csmul (k : Int) (a : Coordinates) : Coordinates := ⟨k * a.x, k * a.y, k * a.z⟩

/-- The matrix of a composite orientation: the images of the three basis
vectors (orientations are linear, so this determines them). -/
def orientOf (planes : List Plane) : Coordinates × Coordinates × Coordinates :=
  (applyRots planes e1, applyRots planes e2, applyRots planes e3)

/-- The 27 cumulative orientations traversed by align_to: the identity
(prefix of length 0) followed by the states after each of the 26 plane
rotations of all_rotations. -/
def cumOrients : List (Coordinates × Coordinates × Coordinates) :=
  (List.range 27).map (fun i => orientOf (all_rotations.take i))

/-- Determinant of a matrix given by its three columns. -/
def detOf (m : Coordinates × Coordinates × Coordinates) : Int :=
  m.1.x * (m.2.1.y * m.2.2.z - m.2.1.z * m.2.2.y)
    - m.2.1.x * (m.1.y * m.2.2.z - m.1.z * m.2.2.y)
    + m.2.2.x * (m.1.y * m.2.1.z - m.1.z * m.2.1.y)

/-- The six signed unit vectors. -/
def signedUnits : List Coordinates :=
  [⟨1, 0, 0⟩, ⟨-1, 0, 0⟩, ⟨0, 1, 0⟩, ⟨0, -1, 0⟩, ⟨0, 0, 1⟩, ⟨0, 0, -1⟩]

/-- The axis a signed unit vector lies on. -/
def axisIndex (c : Coordinates) : Nat :=
  if c.x ≠ 0 then 0 else if c.y ≠ 0 then 1 else 2

/-- Modelled from the spec: the full 24-element rotation group of the cube,
as matrices whose columns are signed unit vectors on three distinct axes
(signed permutation matrices) with determinant +1. -/
def cubeGroup : List (Coordinates × Coordinates × Coordinates) :=
  ((signedUnits.flatMap fun u =>
      signedUnits.flatMap fun v => signedUnits.map fun w => (u, v, w)).filter
    fun m =>
      decide (axisIndex m.1 ≠ axisIndex m.2.1 ∧ axisIndex m.1 ≠ axisIndex m.2.2
        ∧ axisIndex m.2.1 ≠ axisIndex m.2.2 ∧ detOf m = 1))

/-- The full 3 x 2 x 2 box of lattice points used by the concrete scanners
below: 12 points so tightly packed that no 12 pairwise offsets ever agree
except under an exact overlay. -/
def boxC : List Coordinates :=
  [⟨0, 0, 0⟩, ⟨1, 0, 0⟩, ⟨2, 0, 0⟩, ⟨0, 1, 0⟩, ⟨1, 1, 0⟩, ⟨2, 1, 0⟩,
   ⟨0, 0, 1⟩, ⟨1, 0, 1⟩, ⟨2, 0, 1⟩, ⟨0, 1, 1⟩, ⟨1, 1, 1⟩, ⟨2, 1, 1⟩]

/-- The box without its last point: 11 points shared between scR and boxC. -/
def coreE : List Coordinates :=
  [⟨0, 0, 0⟩, ⟨1, 0, 0⟩, ⟨2, 0, 0⟩, ⟨0, 1, 0⟩, ⟨1, 1, 0⟩, ⟨2, 1, 0⟩,
   ⟨0, 0, 1⟩, ⟨1, 0, 1⟩, ⟨2, 0, 1⟩, ⟨0, 1, 1⟩, ⟨1, 1, 1⟩]

/-- An extra beacon far from the box. -/
def pext : Coordinates := ⟨5, 7, 9⟩

/-- A shift separating the second copy of the core inside scQ. -/
def wshift : Coordinates := ⟨9, 0, 0⟩

/-- The 12 beacons of scR: the core plus the far beacon. -/
def eptsR : List Coordinates := coreE ++ [pext]

/-- Seed scanner: exactly the box. -/
def sc0 : Scanner := ⟨⟨0, 0, 0⟩, boxC⟩

/-- A scanner overlapping the seed on the whole box, plus the far beacon. -/
def scP : Scanner := ⟨⟨0, 0, 0⟩, boxC ++ [pext]⟩

/-- A scanner overlapping the seed on the whole box and also containing a
shifted copy of scR's beacons, so scR aligns to it with a nonzero shift. -/
def scQ : Scanner := ⟨⟨0, 0, 0⟩, boxC ++ eptsR.map (fun b => b.move_by wshift)⟩

/-- A scanner sharing only 11 beacons with the seed (so it never aligns to
the seed) but 12 with scP (shift zero) and 12 with scQ (shift wshift). -/
def scR : Scanner := ⟨⟨0, 0, 0⟩, eptsR⟩

/-- A single-beacon scanner at the origin. -/
def solo1 : Scanner := ⟨⟨0, 0, 0⟩, [⟨0, 0, 0⟩]⟩

/-- A single-beacon scanner that can never reach 12 matching offsets. -/
def solo2 : Scanner := ⟨⟨0, 0, 0⟩, [⟨5, 0, 0⟩]⟩

/-- A two-beacon scanner used for the single-scanner counterexample. -/
def duo : Scanner := ⟨⟨0, 0, 0⟩, [⟨0, 0, 0⟩, ⟨1, 2, 3⟩]⟩

lemma applyRots_nil (c : Coordinates) : applyRots [] c = c := rfl

lemma applyRots_cons (p : Plane) (l : List Plane) (c : Coordinates) :
    applyRots (p :: l) c = applyRots l (c.rotate p) := rfl

lemma applyRots_append (l1 l2 : List Plane) (c : Coordinates) :
    applyRots (l1 ++ l2) c = applyRots l2 (applyRots l1 c) := by
  simp [applyRots, List.foldl_append]

lemma rotate_manhattan (a b : Coordinates) (p : Plane) :
    (a.rotate p).manhattan_distance (b.rotate p) = a.manhattan_distance b := by
  cases p <;>
    simp [Coordinates.rotate, Coordinates.manhattan_distance, neg_sub_neg,
      neg_add_eq_sub, abs_sub_comm] <;> ring

lemma applyRots_manhattan (l : List Plane) (a b : Coordinates) :
    (applyRots l a).manhattan_distance (applyRots l b) =
      a.manhattan_distance b := by
  induction l generalizing a b with
  | nil => rfl
  | cons p rest ih => rw [applyRots_cons, applyRots_cons, ih, rotate_manhattan]

/-- C8: every plane rotation preserves the Manhattan metric, and hence so
does every orientation composed from the plane rotations. -/
theorem rotation_isometry :
    (∀ (a b : Coordinates) (p : Plane),
        (a.rotate p).manhattan_distance (b.rotate p) = a.manhattan_distance b)
    ∧ ∀ (a b : Coordinates) (l : List Plane),
        (applyRots l a).manhattan_distance (applyRots l b) =
          a.manhattan_distance b :=
  ⟨rotate_manhattan, fun a b l => applyRots_manhattan l a b⟩

lemma rotate_add (a b : Coordinates) (p : Plane) :
    (a.move_by b).rotate p = (a.rotate p).move_by (b.rotate p) := by
  cases p <;> simp [Coordinates.rotate, Coordinates.move_by] <;> ring

lemma rotate_smul (k : Int) (a : Coordinates) (p : Plane) :
    (csmul k a).rotate p = csmul k (a.rotate p) := by
  cases p <;> simp [Coordinates.rotate, csmul]

lemma applyRots_add (l : List Plane) (a b : Coordinates) :
    applyRots l (a.move_by b) = (applyRots l a).move_by (applyRots l b) := by
  induction l generalizing a b with
  | nil => rfl
  | cons p rest ih => rw [applyRots_cons, rotate_add, ih]; rfl

lemma applyRots_smul (l : List Plane) (k : Int) (a : Coordinates) :
    applyRots l (csmul k a) = csmul k (applyRots l a) := by
  induction l generalizing a with
  | nil => rfl
  | cons p rest ih => rw [applyRots_cons, rotate_smul, ih]; rfl

lemma coords_decompose (c : Coordinates) :
    c = ((csmul c.x e1).move_by (csmul c.y e2)).move_by (csmul c.z e3) := by
  cases c; simp [csmul, e1, e2, e3, Coordinates.move_by]

lemma applyRots_linear (l : List Plane) (c : Coordinates) :
    applyRots l c =
      ((csmul c.x (applyRots l e1)).move_by
        (csmul c.y (applyRots l e2))).move_by (csmul c.z (applyRots l e3)) := by
  conv_lhs => rw [coords_decompose c]
  rw [applyRots_add, applyRots_add, applyRots_smul, applyRots_smul,
    applyRots_smul]

lemma orientOf_ext (l1 l2 : List Plane) (h : orientOf l1 = orientOf l2) :
    ∀ c, applyRots l1 c = applyRots l2 c := by
  intro c
  have h1 : applyRots l1 e1 = applyRots l2 e1 := congrArg (fun m => m.1) h
  have h2 : applyRots l1 e2 = applyRots l2 e2 := congrArg (fun m => m.2.1) h
  have h3 : applyRots l1 e3 = applyRots l2 e3 := congrArg (fun m => m.2.2) h
  rw [applyRots_linear l1 c, applyRots_linear l2 c, h1, h2, h3]

/-- C2 counterexample: the cumulative orientation sequence generated by
all_rotations repeats itself: the state after 1 step equals the state after
21 steps, as a matrix and hence as a map on all coordinates, so the sequence
of 27 cumulative orientations is not duplicate-free. -/
theorem all_rotations_duplicate :
    orientOf (all_rotations.take 1) = orientOf (all_rotations.take 21)
    ∧ (∀ c, applyRots (all_rotations.take 1) c
        = applyRots (all_rotations.take 21) c)
    ∧ (1 : Nat) ≠ 21 := by
  have h : orientOf (all_rotations.take 1) = orientOf (all_rotations.take 21) :=
    by decide
  exact ⟨h, orientOf_ext _ _ h, by decide⟩

/-- C2 amended: read as cumulative compositions starting from the identity,
all_rotations yields a finite sequence of 27 orientations (restartable, being
a fixed list) that contains the identity and covers all 24 distinct
orientations of the cube rotation group, with no omission, but it contains
3 repeated states rather than being duplicate-free. -/
theorem all_rotations_covers :
    cumOrients.length = 27
    ∧ cumOrients.dedup.length = 24
    ∧ orientOf [] ∈ cumOrients
    ∧ (∀ m ∈ cubeGroup, m ∈ cumOrients) := by
  refine ⟨by decide, by decide, by decide, by decide⟩

/-- C9: the 27 cumulative orientations traversed by align_to contain exactly
24 distinct matrices, each of determinant +1, and they are exactly the full
24-element rotation group of the cube; matrix equality coincides with
equality of the orientations as maps on coordinates, the maps being linear. -/
theorem cumulative_orientations_group :
    cumOrients.dedup.length = 24
    ∧ cubeGroup.length = 24
    ∧ (∀ m ∈ cumOrients, detOf m = 1)
    ∧ (∀ m ∈ cumOrients, m ∈ cubeGroup)
    ∧ (∀ m ∈ cubeGroup, m ∈ cumOrients)
    ∧ ∀ i j, i < 27 → j < 27 →
        (orientOf (all_rotations.take i) = orientOf (all_rotations.take j) ↔
          ∀ c, applyRots (all_rotations.take i) c
            = applyRots (all_rotations.take j) c) := by
  refine ⟨by decide, by decide, by decide, by decide, by decide, ?_⟩
  intro i j _ _
  constructor
  · exact orientOf_ext _ _
  · intro h
    simp [orientOf, h e1, h e2, h e3]

lemma bumpCount_fst (d : Coordinates) :
    ∀ counter : List (Coordinates × Nat),
      (bumpCount counter d).1 = lookupCount counter d + 1 := by
  intro counter
  induction counter with
  | nil => rfl
  | cons cell rest ih =>
    obtain ⟨e, n⟩ := cell
    by_cases he : e = d
    · simp [bumpCount, lookupCount, he]
    · simp [bumpCount, lookupCount, he, ih]

lemma bumpCount_lookup (d t : Coordinates) :
    ∀ counter : List (Coordinates × Nat),
      lookupCount (bumpCount counter d).2 t
        = if t = d then lookupCount counter d + 1 else lookupCount counter t
  | [] => by
    by_cases ht : t = d
    · subst ht
      simp [bumpCount, lookupCount]
    · have hdt : ¬ d = t := fun h => ht h.symm
      simp [bumpCount, lookupCount, ht, hdt]
  | (e, n) :: rest => by
    have ih := bumpCount_lookup d t rest
    by_cases he : e = d
    · subst he
      by_cases ht : t = e
      · subst ht
        simp [bumpCount, lookupCount]
      · have het : ¬ e = t := fun h => ht h.symm
        simp [bumpCount, lookupCount, ht, het]
    · by_cases ht : t = d
      · subst ht
        simp [bumpCount, lookupCount, he, ih]
      · simp [bumpCount, lookupCount, he, ht, ih]

lemma canAlignGo_some_count (t : Coordinates) :
    ∀ (l : List Coordinates) (counter : List (Coordinates × Nat)),
      canAlignGo l counter = some t →
        12 ≤ lookupCount counter t + l.count t := by
  intro l
  induction l with
  | nil => intro counter h; simp [canAlignGo] at h
  | cons d rest ih =>
    intro counter h
    by_cases hc : 12 ≤ (bumpCount counter d).1
    · have hd : d = t := by simpa [canAlignGo, hc] using h
      subst hd
      rw [List.count_cons_self]
      have hfst := bumpCount_fst d counter
      omega
    · have h2 : canAlignGo rest (bumpCount counter d).2 = some t := by
        simpa [canAlignGo, hc] using h
      have hrec := ih _ h2
      rw [bumpCount_lookup] at hrec
      have hfst := bumpCount_fst d counter
      by_cases ht : t = d
      · subst ht
        rw [List.count_cons_self]
        simp at hrec
        omega
      · rw [List.count_cons_of_ne ht]
        simp only [if_neg ht] at hrec
        omega

lemma canAlignGo_none_count :
    ∀ (l : List Coordinates) (counter : List (Coordinates × Nat)),
      canAlignGo l counter = none →
        ∀ t ∈ l, lookupCount counter t + l.count t < 12 := by
  intro l
  induction l with
  | nil => intro counter _ t ht; simp at ht
  | cons d rest ih =>
    intro counter h t ht
    have hfst := bumpCount_fst d counter
    have hc : ¬ 12 ≤ (bumpCount counter d).1 := by
      intro hc
      simp [canAlignGo, hc] at h
    have h2 : canAlignGo rest (bumpCount counter d).2 = none := by
      simpa [canAlignGo, hc] using h
    have hrec := ih _ h2
    rcases List.mem_cons.mp ht with hd | hmem
    · subst hd
      rw [List.count_cons_self]
      by_cases hm : t ∈ rest
      · have hin := hrec t hm
        rw [bumpCount_lookup] at hin
        simp at hin
        omega
      · rw [List.count_eq_zero_of_not_mem hm]
        omega
    · by_cases htd : t = d
      · subst htd
        rw [List.count_cons_self]
        have hin := hrec t hmem
        rw [bumpCount_lookup] at hin
        simp at hin
        omega
      · rw [List.count_cons_of_ne htd]
        have hin := hrec t hmem
        rw [bumpCount_lookup] at hin
        simp only [if_neg htd] at hin
        omega
lemma distance_eq_iff (a b t : Coordinates) :
    a.distance b = t ↔ b = a.move_by t := by
  cases a; cases b; cases t
  simp only [Coordinates.distance, Coordinates.move_by, Coordinates.mk.injEq]
  omega

lemma count_map_distance (a t : Coordinates) (lb : List Coordinates) :
    (lb.map (fun b => a.distance b)).count t = lb.count (a.move_by t) := by
  induction lb with
  | nil => rfl
  | cons b rest ih =>
    rw [List.map_cons, List.count_cons, List.count_cons, ih]
    congr 1
    simp only [beq_iff_eq]
    by_cases hb : b = a.move_by t
    · rw [if_pos ((distance_eq_iff a b t).mpr hb), if_pos hb]
    · rw [if_neg (fun hc => hb ((distance_eq_iff a b t).mp hc)), if_neg hb]

lemma count_flatMap_pairs (t : Coordinates) (lb : List Coordinates)
    (hB : lb.Nodup) :
    ∀ la : List Coordinates,
      (la.flatMap (fun a => lb.map (fun b => a.distance b))).count t
        = (la.filter (fun a => decide (a.move_by t ∈ lb))).length := by
  intro la
  induction la with
  | nil => rfl
  | cons a rest ih =>
    rw [List.flatMap_cons, List.count_append, count_map_distance, ih]
    by_cases hm : a.move_by t ∈ lb
    · rw [List.count_eq_one_of_mem hB hm,
        List.filter_cons_of_pos (by simpa using hm)]
      simp [Nat.add_comm]
    · rw [List.count_eq_zero_of_not_mem hm,
        List.filter_cons_of_neg (by simpa using hm)]
      simp

lemma can_align_some_count (A B : Scanner) (t : Coordinates)
    (h : A.can_align_to B = some t) : 12 ≤ (A.pairDiffs B).count t := by
  have hcount := canAlignGo_some_count t (A.pairDiffs B) [] h
  simpa [lookupCount] using hcount

lemma can_align_some_filter (A B : Scanner) (hB : B.beacons.Nodup)
    (t : Coordinates) (h : A.can_align_to B = some t) :
    12 ≤ (A.beacons.filter
      (fun a => decide (a.move_by t ∈ B.beacons))).length := by
  have h12 := can_align_some_count A B t h
  simp only [Scanner.pairDiffs] at h12
  rw [count_flatMap_pairs t B.beacons hB A.beacons] at h12
  exact h12

/-- C3: can_align_to returns some translation exactly when some pairwise
difference value occurs at least 12 times among the pairs (a from A, b from
B) — with both beacon lists duplicate-free, the pair-difference list
enumerates each such pair exactly once — and any returned translation t has
at least 12 distinct beacons a of A with a + t among B's beacons. -/
theorem can_align_to_spec (A B : Scanner)
    (_hA : A.beacons.Nodup) (hB : B.beacons.Nodup) :
    ((∃ t, A.can_align_to B = some t) ↔
      ∃ t, 12 ≤ (A.pairDiffs B).count t)
    ∧ ∀ t, A.can_align_to B = some t →
        12 ≤ (A.beacons.filter
          (fun a => decide (a.move_by t ∈ B.beacons))).length := by
  refine ⟨⟨fun ⟨t, h⟩ => ⟨t, can_align_some_count A B t h⟩, ?_⟩,
    fun t h => can_align_some_filter A B hB t h⟩
  rintro ⟨t, hcount⟩
  cases hval : A.can_align_to B with
  | some t' => exact ⟨t', rfl⟩
  | none =>
    exfalso
    have hmem : t ∈ A.pairDiffs B :=
      List.count_pos_iff.mp (by omega)
    have hlt := canAlignGo_none_count (A.pairDiffs B) [] hval t hmem
    simp at hlt
    omega

lemma rotate_inj (p : Plane) (a b : Coordinates)
    (h : a.rotate p = b.rotate p) : a = b := by
  cases a; cases b
  cases p <;>
    simp only [Coordinates.rotate, Coordinates.mk.injEq] at h ⊢ <;> omega

lemma applyRots_inj (l : List Plane) :
    ∀ a b, applyRots l a = applyRots l b → a = b := by
  induction l with
  | nil => intro a b h; exact h
  | cons p rest ih =>
    intro a b h
    rw [applyRots_cons, applyRots_cons] at h
    exact rotate_inj p a b (ih _ _ h)

lemma orientScanner_nil (s : Scanner) : orientScanner [] s = s := by
  cases s
  simp [orientScanner, show applyRots [] = fun c => c from rfl]

lemma orientScanner_cons (p : Plane) (pre : List Plane) (s : Scanner) :
    orientScanner pre (s.rotate p) = orientScanner (p :: pre) s := by
  cases s
  simp only [orientScanner, Scanner.rotate, List.map_map]
  rfl

lemma alignGo_spec (other : Scanner) :
    ∀ (planes : List Plane) (scanner P2 : Scanner),
      alignGo other planes scanner = some P2 →
      ∃ k t, k ≤ planes.length
        ∧ (orientScanner (planes.take k) scanner).can_align_to other = some t
        ∧ P2 = (orientScanner (planes.take k) scanner).move_by t := by
  intro planes
  induction planes with
  | nil =>
    intro scanner P2 h
    cases hc : scanner.can_align_to other with
    | none => simp [alignGo, hc] at h
    | some shift =>
      have hP2 : scanner.move_by shift = P2 := by simpa [alignGo, hc] using h
      exact ⟨0, shift, by simp,
        by rw [List.take_nil, orientScanner_nil]; exact hc,
        by rw [List.take_nil, orientScanner_nil]; exact hP2.symm⟩
  | cons p rest ih =>
    intro scanner P2 h
    cases hc : scanner.can_align_to other with
    | some shift =>
      have hP2 : scanner.move_by shift = P2 := by simpa [alignGo, hc] using h
      exact ⟨0, shift, by simp,
        by rw [List.take_zero, orientScanner_nil]; exact hc,
        by rw [List.take_zero, orientScanner_nil]; exact hP2.symm⟩
    | none =>
      have h2 : alignGo other rest (scanner.rotate p) = some P2 := by
        simpa [alignGo, hc] using h
      obtain ⟨k, t, hk, hcan, hP2⟩ := ih (scanner.rotate p) P2 h2
      rw [orientScanner_cons] at hcan hP2
      exact ⟨k + 1, t, Nat.succ_le_succ hk,
        by rw [List.take_succ_cons]; exact hcan,
        by rw [List.take_succ_cons]; exact hP2⟩

lemma length_filter_map_eq {α β : Type} (f : α → β) (q : β → Bool)
    (l : List α) :
    ((l.map f).filter q).length = (l.filter (fun a => q (f a))).length := by
  induction l with
  | nil => rfl
  | cons a rest ih =>
    rw [List.map_cons, List.filter_cons, List.filter_cons]
    cases q (f a) <;> simp [ih]

/-- C4: whenever align_to places a scanner, the result is the original
scanner rotated by a composite of some prefix of the rotation sequence
(possibly the identity) and translated by some shift, and at least 12 of the
placed beacons are beacons of the reference. -/
theorem align_to_spec (P S P2 : Scanner)
    (_hP : P.beacons.Nodup) (hS : S.beacons.Nodup)
    (h : P.align_to S = some P2) :
    ∃ k t, k ≤ 26
      ∧ P2.position = (applyRots (all_rotations.take k) P.position).move_by t
      ∧ P2.beacons = P.beacons.map
          (fun b => (applyRots (all_rotations.take k) b).move_by t)
      ∧ 12 ≤ (P2.beacons.filter (fun b => decide (b ∈ S.beacons))).length := by
  obtain ⟨k, t, hk, hcan, hP2⟩ := alignGo_spec S all_rotations P P2 h
  have hklen : k ≤ 26 := by simpa [all_rotations] using hk
  have hbeacons : P2.beacons
      = P.beacons.map
          (fun b => (applyRots (all_rotations.take k) b).move_by t) := by
    rw [hP2]
    simp [orientScanner, Scanner.move_by, List.map_map, Function.comp]
  have hpos : P2.position
      = (applyRots (all_rotations.take k) P.position).move_by t := by
    rw [hP2]
    rfl
  refine ⟨k, t, hklen, hpos, hbeacons, ?_⟩
  have h12 := can_align_some_filter (orientScanner (all_rotations.take k) P) S
    hS t hcan
  have hmapped : P2.beacons
      = (orientScanner (all_rotations.take k) P).beacons.map
          (fun b => b.move_by t) := by
    rw [hP2]
    rfl
  rw [hmapped, length_filter_map_eq]
  exact h12

/-- C4 witness: the box scanner aligns to itself with the identity
orientation and zero shift. -/
theorem align_to_spec_witness :
    sc0.align_to sc0 = some sc0
    ∧ ∃ k t, k ≤ 26
        ∧ sc0.position
            = (applyRots (all_rotations.take k) sc0.position).move_by t
        ∧ sc0.beacons = sc0.beacons.map
            (fun b => (applyRots (all_rotations.take k) b).move_by t)
        ∧ 12 ≤ (sc0.beacons.filter
            (fun b => decide (b ∈ sc0.beacons))).length := by
  have h : sc0.align_to sc0 = some sc0 := by decide!
  exact ⟨h, align_to_spec sc0 sc0 sc0 (by decide) (by decide) h⟩

/-- C3 witness: the can_align_to specification instantiated at the concrete
box scanner aligned with itself. -/
theorem can_align_to_spec_witness :
    boxC.Nodup
    ∧ (((∃ t, sc0.can_align_to sc0 = some t) ↔
          ∃ t, 12 ≤ (sc0.pairDiffs sc0).count t)
        ∧ ∀ t, sc0.can_align_to sc0 = some t →
            12 ≤ (sc0.beacons.filter
              (fun a => decide (a.move_by t ∈ sc0.beacons))).length) := by
  have hn : boxC.Nodup := by decide
  exact ⟨hn, can_align_to_spec sc0 sc0 hn hn⟩

/-- C6: the empty scanner list yields no result (there is no seed scanner);
the model is a total function, so no panic is possible. -/
theorem solve_empty : solve [] = none := rfl

/-- C1 counterexample: a single scanner with 2 beacons makes solve return
none, not some pair (2, 0): with just one aligned scanner there are no
scanner pairs, Iterator::max yields none and the question-mark aborts. -/
theorem solve_single_cex :
    solve [duo] = none
    ∧ duo.beacons.length = 2
    ∧ solve [duo] ≠ some (duo.beacons.length, 0) := by
  refine ⟨by decide, by decide, by decide⟩

/-- C1 amended: for every single-scanner input, solve returns none (the
maximum inter-scanner Manhattan distance is a maximum over zero pairs, which
the code propagates as an absent result), regardless of the beacon count. -/
theorem solve_single (s : Scanner) : solve [s] = none := rfl

lemma innerLoop_eq (ref : Scanner) :
    ∀ (pending al sk : List Scanner),
      innerLoop ref pending al sk =
        ((pending.filterMap (fun p => p.align_to ref)).reverse ++ al,
         (pending.filter (fun p => (p.align_to ref).isNone)).reverse ++ sk) := by
  intro pending
  induction pending with
  | nil => intro al sk; rfl
  | cons p rest ih =>
    intro al sk
    cases hp : p.align_to ref with
    | some s2 =>
      rw [show innerLoop ref (p :: rest) al sk
          = innerLoop ref rest (s2 :: al) sk from by simp [innerLoop, hp]]
      rw [ih]
      simp [List.filterMap_cons, List.filter_cons, hp]
    | none =>
      rw [show innerLoop ref (p :: rest) al sk
          = innerLoop ref rest al (p :: sk) from by simp [innerLoop, hp]]
      rw [ih]
      simp [List.filterMap_cons, List.filter_cons, hp]

lemma alignGo_none_of_forall (other : Scanner) :
    ∀ (planes : List Plane) (s : Scanner),
      (∀ k, k ≤ planes.length →
        (orientScanner (planes.take k) s).can_align_to other = none) →
      alignGo other planes s = none := by
  intro planes
  induction planes with
  | nil =>
    intro s h
    have h0 := h 0 (by simp)
    rw [List.take_nil, orientScanner_nil] at h0
    simp [alignGo, h0]
  | cons p rest ih =>
    intro s h
    have h0 := h 0 (by simp)
    rw [List.take_zero, orientScanner_nil] at h0
    rw [show alignGo other (p :: rest) s = alignGo other rest (s.rotate p) from
      by simp [alignGo, h0]]
    apply ih
    intro k hk
    have hs := h (k + 1) (by simpa using Nat.succ_le_succ hk)
    rw [List.take_succ_cons] at hs
    rwa [orientScanner_cons]

set_option maxRecDepth 10000 in
lemma scR_noalign : scR.align_to sc0 = none := by
  apply alignGo_none_of_forall
  intro k hk
  simp only [all_rotations, List.length_cons, List.length_nil] at hk
  interval_cases k <;> decide!

set_option maxRecDepth 10000 in
lemma hP_align : scP.align_to sc0 = some scP := by decide!

set_option maxRecDepth 10000 in
lemma hQ_align : scQ.align_to sc0 = some scQ := by decide!

set_option maxRecDepth 10000 in
lemma hRP_align : scR.align_to scP = some scR := by decide!

set_option maxRecDepth 10000 in
lemma hRQ_align : scR.align_to scQ = some (scR.move_by wshift) := by decide!

lemma solve_eq_of_loop (s0 : Scanner) (rest alignedRev : List Scanner)
    (h : solveLoop (s0 :: rest).length [s0] rest.reverse []
      = some (alignedRev, [])) :
    solve (s0 :: rest)
      = match listMax (pairDistances alignedRev.reverse) with
        | none => none
        | some md => some (uniqueBeacons alignedRev.reverse, md) := by
  simp only [solve, h]
  simp

lemma innerLoop_nil (ref : Scanner) (al sk : List Scanner) :
    innerLoop ref [] al sk = (al, sk) := rfl

lemma innerLoop_step_some (ref p s2 : Scanner) (rest al sk : List Scanner)
    (h : p.align_to ref = some s2) :
    innerLoop ref (p :: rest) al sk = innerLoop ref rest (s2 :: al) sk := by
  simp [innerLoop, h]

lemma innerLoop_step_none (ref p : Scanner) (rest al sk : List Scanner)
    (h : p.align_to ref = none) :
    innerLoop ref (p :: rest) al sk = innerLoop ref rest al (p :: sk) := by
  simp [innerLoop, h]

lemma solveLoop_step (fuel : Nat) (a : Scanner)
    (restAl pending aligned u v : List Scanner)
    (h : innerLoop a pending restAl [] = (u, v)) :
    solveLoop (fuel + 1) (a :: restAl) pending aligned
      = solveLoop fuel u v (a :: aligned) := by
  simp [solveLoop, h]

lemma solveLoop_done (fuel : Nat) (pending aligned : List Scanner) :
    solveLoop fuel [] pending aligned = some (aligned, pending) := by
  cases fuel <;> rfl

lemma solve_PQR_eq : solve [sc0, scP, scQ, scR] = some (25, 0) := by
  have r1 : innerLoop sc0 [scR, scQ, scP] [] [] = ([scP, scQ], [scR]) := by
    rw [innerLoop_step_none sc0 scR _ _ _ scR_noalign,
      innerLoop_step_some sc0 scQ scQ _ _ _ hQ_align,
      innerLoop_step_some sc0 scP scP _ _ _ hP_align,
      innerLoop_nil]
  have r2 : innerLoop scP [scR] [scQ] [] = ([scR, scQ], []) := by
    rw [innerLoop_step_some scP scR scR _ _ _ hRP_align, innerLoop_nil]
  have hloop : solveLoop 4 [sc0] [scR, scQ, scP] [] =
      some ([scQ, scR, scP, sc0], []) := by
    rw [solveLoop_step 3 sc0 [] [scR, scQ, scP] [] [scP, scQ] [scR] r1,
      solveLoop_step 2 scP [scQ] [scR] [sc0] [scR, scQ] [] r2,
      solveLoop_step 1 scR [scQ] [] [scP, sc0] [scQ] [] (innerLoop_nil _ _ _),
      solveLoop_step 0 scQ [] [] [scR, scP, sc0] [] [] (innerLoop_nil _ _ _),
      solveLoop_done]
  rw [solve_eq_of_loop sc0 [scP, scQ, scR] [scQ, scR, scP, sc0] hloop]
  decide!

lemma solve_RQP_eq : solve [sc0, scR, scQ, scP] = some (25, 9) := by
  have r1 : innerLoop sc0 [scP, scQ, scR] [] [] = ([scQ, scP], [scR]) := by
    rw [innerLoop_step_some sc0 scP scP _ _ _ hP_align,
      innerLoop_step_some sc0 scQ scQ _ _ _ hQ_align,
      innerLoop_step_none sc0 scR _ _ _ scR_noalign,
      innerLoop_nil]
  have r2 : innerLoop scQ [scR] [scP] [] = ([scR.move_by wshift, scP], []) := by
    rw [innerLoop_step_some scQ scR (scR.move_by wshift) _ _ _ hRQ_align,
      innerLoop_nil]
  have hloop : solveLoop 4 [sc0] [scP, scQ, scR] [] =
      some ([scP, scR.move_by wshift, scQ, sc0], []) := by
    rw [solveLoop_step 3 sc0 [] [scP, scQ, scR] [] [scQ, scP] [scR] r1,
      solveLoop_step 2 scQ [scP] [scR] [sc0] [scR.move_by wshift, scP] [] r2,
      solveLoop_step 1 (scR.move_by wshift) [scP] [] [scQ, sc0] [scP] []
        (innerLoop_nil _ _ _),
      solveLoop_step 0 scP [] [] [scR.move_by wshift, scQ, sc0] [] []
        (innerLoop_nil _ _ _),
      solveLoop_done]
  rw [solve_eq_of_loop sc0 [scR, scQ, scP]
    [scP, scR.move_by wshift, scQ, sc0] hloop]
  decide!

/-- C7 counterexample: permuting the scanners after the seed changes the
result of solve.  scR cannot align to the seed; depending on the order of
the other two scanners, the round-two reference scR first meets is scP
(placing scR with zero shift) or scQ (placing scR shifted by wshift), and
the final maximum scanner distance differs: some (25, 0) versus
some (25, 9). -/
theorem solve_order_dependent :
    ([scP, scQ, scR].Perm [scR, scQ, scP])
    ∧ solve [sc0, scP, scQ, scR] = some (25, 0)
    ∧ solve [sc0, scR, scQ, scP] = some (25, 9)
    ∧ solve [sc0, scP, scQ, scR] ≠ solve [sc0, scR, scQ, scP] := by
  refine ⟨by decide, solve_PQR_eq, solve_RQP_eq, ?_⟩
  rw [solve_PQR_eq, solve_RQP_eq]
  decide

/-- C7 amended: against a fixed reference, one round of the work list is
order-independent — the aligned results and the skipped pool obtained from
permuted pending pools are permutations of each other, alignment being a pure
test of each pending scanner against the reference — but the final results
of solve may depend on the order of the pending scanners when the input
admits mutually inconsistent alignments (see the counterexample). -/
theorem innerLoop_perm (ref : Scanner) (p1 p2 al sk : List Scanner)
    (h : p1.Perm p2) :
    (innerLoop ref p1 al sk).1.Perm (innerLoop ref p2 al sk).1
    ∧ (innerLoop ref p1 al sk).2.Perm (innerLoop ref p2 al sk).2 := by
  rw [innerLoop_eq, innerLoop_eq]
  constructor
  · exact ((List.reverse_perm _).trans ((h.filterMap _).trans (List.reverse_perm _).symm)).append_right al
  · exact ((List.reverse_perm _).trans ((h.filter _).trans (List.reverse_perm _).symm)).append_right sk

/-- C7 amended witness: the one-round permutation invariance at a concrete
pending pool. -/
theorem innerLoop_perm_witness :
    ([solo1, solo2].Perm [solo2, solo1])
    ∧ (innerLoop sc0 [solo1, solo2] [] []).1.Perm
        (innerLoop sc0 [solo2, solo1] [] []).1
    ∧ (innerLoop sc0 [solo1, solo2] [] []).2.Perm
        (innerLoop sc0 [solo2, solo1] [] []).2 := by
  have hp : ([solo1, solo2].Perm [solo2, solo1]) := by decide
  have h := innerLoop_perm sc0 [solo1, solo2] [solo2, solo1] [] [] hp
  exact ⟨hp, h.1, h.2⟩

lemma innerLoop_lengths (ref : Scanner) :
    ∀ (pending al sk : List Scanner),
      (innerLoop ref pending al sk).1.length
          + (innerLoop ref pending al sk).2.length
        = pending.length + al.length + sk.length := by
  intro pending
  induction pending with
  | nil => intro al sk; simp [innerLoop]
  | cons p rest ih =>
    intro al sk
    cases hp : p.align_to ref with
    | some s2 =>
      rw [show innerLoop ref (p :: rest) al sk
          = innerLoop ref rest (s2 :: al) sk from by simp [innerLoop, hp]]
      rw [ih]
      simp
      omega
    | none =>
      rw [show innerLoop ref (p :: rest) al sk
          = innerLoop ref rest al (p :: sk) from by simp [innerLoop, hp]]
      rw [ih]
      simp
      omega

lemma alignTries_le (other : Scanner) :
    ∀ (planes : List Plane) (scanner : Scanner),
      alignTries other planes scanner ≤ planes.length + 1 := by
  intro planes
  induction planes with
  | nil => intro scanner; simp [alignTries]
  | cons p rest ih =>
    intro scanner
    cases hp : scanner.can_align_to other with
    | some shift => simp [alignTries, hp]
    | none =>
      rw [show alignTries other (p :: rest) scanner
          = 1 + alignTries other rest (scanner.rotate p) from by
        simp [alignTries, hp]]
      have := ih (scanner.rotate p)
      simp
      omega

/-- C10: align_to makes at most 27 overlap checks (one per cumulative
orientation), and the outer work-list loop needs at most
aligning.length + pending.length iterations: with that much fuel solveLoop
always yields a result, so solve — which supplies fuel n for n input
scanners — terminates on every input. -/
theorem solve_terminates :
    (∀ (other scanner : Scanner), alignTries other all_rotations scanner ≤ 27)
    ∧ ∀ (fuel : Nat) (al pend acc : List Scanner),
        al.length + pend.length ≤ fuel → solveLoop fuel al pend acc ≠ none := by
  constructor
  · intro other scanner
    have h := alignTries_le other all_rotations scanner
    simpa [all_rotations] using h
  · intro fuel
    induction fuel with
    | zero =>
      intro al pend acc hle
      have hal : al = [] := by
        cases al with
        | nil => rfl
        | cons a r => simp at hle
      subst hal
      simp [solveLoop]
    | succ n ih =>
      intro al pend acc hle
      cases al with
      | nil => simp [solveLoop]
      | cons a restAl =>
        rw [show solveLoop (n + 1) (a :: restAl) pend acc
            = solveLoop n (innerLoop a pend restAl []).1
                (innerLoop a pend restAl []).2 (a :: acc) from rfl]
        apply ih
        have hlen := innerLoop_lengths a pend restAl []
        simp at hlen hle ⊢
        omega

/-- C10 witness: the fuel bound instantiated at a concrete state. -/
theorem solve_terminates_witness :
    ((1 : Nat) + 0 ≤ 1) ∧ solveLoop 1 [solo1] [] [] ≠ none :=
  ⟨by decide, solve_terminates.2 1 [solo1] [] [] (by decide)⟩

/-- C5: whenever the work list of solve finishes with a non-empty pending
pool, solve returns none; the model is a total function, so the failure is
an absent result, never a panic. -/
theorem solve_disconnected (s0 : Scanner) (rest aligned pending : List Scanner)
    (h : solveLoop (s0 :: rest).length [s0] rest.reverse [] =
      some (aligned, pending))
    (hne : pending ≠ []) :
    solve (s0 :: rest) = none := by
  simp only [solve, h]
  simp [hne]

/-- C5 witness: two single-beacon scanners can never align, so the second
stays pending and solve reports the absence of a result. -/
theorem solve_disconnected_witness :
    solveLoop ([solo1, solo2] : List Scanner).length [solo1]
        ([solo2] : List Scanner).reverse [] = some ([solo1], [solo2])
    ∧ ([solo2] : List Scanner) ≠ []
    ∧ solve [solo1, solo2] = none := by
  have h : solveLoop ([solo1, solo2] : List Scanner).length [solo1]
      ([solo2] : List Scanner).reverse [] = some ([solo1], [solo2]) := by
    decide
  exact ⟨h, by decide, solve_disconnected solo1 [solo2] [solo1] [solo2] h
    (by decide)⟩

end Day19
